import Mathlib

/-
Verification of the sherlock face-detection pipeline against its
specification.  The program consists of `face.py` (pipeline wiring,
stage task functions, capture loop, shutdown cascade) and `iproc.py`
(raster preprocessing / contour postprocessing).  We embed the stage
task functions and the FrameStore (`common`, a manager dict) shallowly:
Python exceptions become `Except`, machine state becomes explicit
arguments and results, and external OpenCV raster transforms are opaque
function parameters (they are out of scope per the spec).
-/

/-- Python exception kinds raised or caught by the embedded code. -/
inductive PyErr where
  | typeError
  | valueError
  | nameError
  | keyError
  deriving DecidableEq, Repr

/-! ## FrameStore (`common = manager.dict()`, face.py)

The FrameStore is a plain (manager-proxied) Python dict keyed by capture
timestamps.  The operations the program performs on it are subscript
assignment `common[now] = record` (face.py line 182), subscript read
`common[tstamp]` (face.py lines 30, 42, 71, 86) and `del common[tstamp]`
(face.py line 149).  We embed the dict as an association list whose
lookup respects the most recent assignment. -/

/-- Python dict assignment `s[k] = v`: inserts, silently overwriting any
existing entry for `k`.  Dict assignment cannot fail. -/
def storePut {α : Type} (s : List (Nat × α)) (k : Nat) (v : α) : List (Nat × α) :=
  (k, v) :: s.filter (fun p => p.1 ≠ k)

/-- Python dict subscript read `s[k]`: the record, or a KeyError. -/
def storeGet {α : Type} (s : List (Nat × α)) (k : Nat) : Except PyErr α :=
  match s.find? (fun p => p.1 = k) with
  | some p => Except.ok p.2
  | none => Except.error PyErr.keyError

/-- Python `del s[k]`: removes the entry, or raises KeyError if absent. -/
def storeDel {α : Type} (s : List (Nat × α)) (k : Nat) : Except PyErr (List (Nat × α)) :=
  if s.any (fun p => p.1 = k) then Except.ok (s.filter (fun p => p.1 ≠ k))
  else Except.error PyErr.keyError

/-! ## Detector stage (face.py lines 33-58)

`Detector.doTask` reads the preprocessed image from the FrameStore,
invokes the classifier, and tags each returned rectangle with the
variant's color.  The whole body sits in a bare `try`/`except` that only
prints; crucially the local `rects = list()` binding happens inside the
`try`, after the FrameStore read.  The classifier invocation (shape and
min/max size computation plus `detectMultiScale`) is modelled as one
opaque fallible call on the image.  The result records the lines printed
(the log) and the outcome of `doTask`. -/

def detectorDoTask {Img : Type} (store : List (Nat × Img))
    (detect : Img → Except Unit (List (Int × Int × Int × Int)))
    (color : Nat) (tstamp : Nat) :
    List String × Except PyErr (List (Int × Int × Int × Int × Nat)) :=
  match storeGet store tstamp with
  | Except.error _ =>
      -- `common[tstamp]` raised before `rects = list()` was executed: the
      -- bare `except` catches and prints, but then `return rects` itself
      -- raises NameError since `rects` was never bound.
      (["Error in detector!!!!!!!!!!!!"], Except.error PyErr.nameError)
  | Except.ok image =>
      match detect image with
      | Except.error _ =>
          -- classifier raised after `rects = list()`: caught, printed,
          -- and the empty `rects` is returned normally.
          (["Error in detector!!!!!!!!!!!!"], Except.ok [])
      | Except.ok r =>
          ([], Except.ok (r.map (fun q => (q.1, q.2.1, q.2.2.1, q.2.2.2, color))))

/-! ## Staller stage (face.py lines 94-102)

`Staller.doTask` computes `delta = now - tstamp` and sleeps for
`timedelta(seconds=2) - delta` whenever that is positive, then returns
the timestamp.  We embed instants and durations as rationals (seconds)
and record the sleep duration explicitly. -/

/-- Duration (in seconds) that `Staller.doTask` sleeps for, given the
current instant and the task timestamp. -/
def stallerSleep (now tstamp : ℚ) : ℚ :=
  let delta := now - tstamp
  let duration := 2 - delta
  if 0 < duration then duration else 0

/-- The Staller's observable behavior on one task: how long it blocks and
what it forwards.  The second tuple component of the task (`results`) is
discarded by the source, which returns only `tstamp`. -/
def stallerDoTask (now tstamp : ℚ) : ℚ × ℚ :=
  (stallerSleep now tstamp, tstamp)

/-! ## Preprocessing (iproc.py lines 16-39)

`preprocess` converts the input image to grayscale into the given output
buffer in place, then histogram-equalizes that buffer in place.
`preprocess2` does the same functionally and returns the result.  The two
raster transforms are opaque pure functions on buffers (out of scope per
the spec); an in-place OpenCV call overwrites the destination buffer with
the transform of the source. -/

/-- iproc.preprocess: in-place variant.  Returns the final contents of
the `image_out` buffer; its prior contents are overwritten. -/
def preprocess {Img : Type} (cvtGray equalizeHist : Img → Img)
    (image_in image_out : Img) : Img :=
  let image_out := cvtGray image_in
  let image_out := equalizeHist image_out
  image_out

/-- iproc.preprocess2: functional variant. -/
def preprocess2 {Img : Type} (cvtGray equalizeHist : Img → Img)
    (image_in : Img) : Img :=
  let image_gray := cvtGray image_in
  let image_out := equalizeHist image_gray
  image_out

/-! ## Theorems -/

/-- Claim C3, counterexample.  The claim states that `put` fails with
`DuplicateKey` when the timestamp already exists, which would leave the
original record in place.  The code's put is dict assignment
(`common[now] = record`): at the concrete store holding key 1 with
record 10, putting record 20 under the same key 1 does not fail — the
subsequent get observes the new record 20, not the original 10. -/
theorem frameStore_duplicate_put_overwrites :
    storeGet (storePut [((1 : Nat), (10 : Nat))] 1 20) 1 = Except.ok 20 ∧
    storeGet (storePut [((1 : Nat), (10 : Nat))] 1 20) 1 ≠ Except.ok 10 := by
  constructor
  · rfl
  · intro h
    simp [storePut, storeGet, List.find?] at h

/-- Claim C3, amended: `put` is dict assignment — it inserts a new entry
and silently overwrites on a duplicate timestamp (no `DuplicateKey`
failure); `get` of an absent key fails with KeyError (the code's
NotFound); `get` after a successful `delete` of that key fails with
KeyError. -/
theorem frameStore_contract {α : Type} (s u t : List (Nat × α)) (k : Nat) (v : α)
    (hdel : storeDel s k = Except.ok t) (habs : ∀ w, (k, w) ∉ u) :
    storeGet (storePut s k v) k = Except.ok v ∧
    storeGet t k = Except.error PyErr.keyError ∧
    storeGet u k = Except.error PyErr.keyError := by
  refine ⟨?_, ?_, ?_⟩
  · simp [storePut, storeGet, List.find?]
  · unfold storeDel at hdel
    split at hdel
    · cases hdel
      unfold storeGet
      have hnone : (s.filter (fun p => decide (p.1 ≠ k))).find? (fun p => decide (p.1 = k)) = none := by
        rw [List.find?_eq_none]
        intro x hx
        have := (List.mem_filter.mp hx).2
        simpa using this
      rw [hnone]
    · cases hdel
  · unfold storeGet
    have hnone : u.find? (fun p => decide (p.1 = k)) = none := by
      rw [List.find?_eq_none]
      intro x hx
      simp only [decide_eq_true_eq]
      intro hk
      exact habs x.2 (by rw [← hk]; exact hx)
    rw [hnone]

/-- Witness for the amended FrameStore contract at a concrete store. -/
theorem frameStore_contract_witness :
    storeGet (storePut [((1 : Nat), (10 : Nat))] 1 99) 1 = Except.ok 99 ∧
    storeGet ([] : List (Nat × Nat)) 1 = Except.error PyErr.keyError ∧
    storeGet [((2 : Nat), (20 : Nat))] 1 = Except.error PyErr.keyError :=
  frameStore_contract [(1, 10)] [(2, 20)] [] 1 99 rfl (by
    intro w hw
    simp at hw)

/-- Claim C5: when the FrameStore read succeeds but the classifier
invocation raises, `Detector.doTask` logs the failure line and returns an
empty detection result; the exception is absorbed (the outcome is a
normal return, so neither the worker pool nor the pipeline aborts). -/
theorem detector_transient_failure {Img : Type} (store : List (Nat × Img))
    (detect : Img → Except Unit (List (Int × Int × Int × Int)))
    (color : Nat) (tstamp : Nat) (img : Img)
    (hget : storeGet store tstamp = Except.ok img)
    (hfail : detect img = Except.error ()) :
    detectorDoTask store detect color tstamp =
      (["Error in detector!!!!!!!!!!!!"], Except.ok []) := by
  simp [detectorDoTask, hget, hfail]

/-- Witness: a store holding image 5 at timestamp 0 and an
always-raising classifier. -/
theorem detector_transient_failure_witness :
    detectorDoTask [((0 : Nat), (5 : Nat))] (fun _ => Except.error ()) 7 0 =
      (["Error in detector!!!!!!!!!!!!"], Except.ok []) :=
  detector_transient_failure [(0, 5)] (fun _ => Except.error ()) 7 0 5 rfl rfl

/-- Claim C8: there is an input on which the catch-all does not make
`Detector.doTask` total — when `common[tstamp]` raises (entry already
deleted), the exception fires before `rects` is bound, so the
`return rects` after the handler itself raises NameError. -/
theorem detector_not_total :
    ∃ (store : List (Nat × Nat))
      (detect : Nat → Except Unit (List (Int × Int × Int × Int)))
      (color tstamp : Nat),
      (detectorDoTask store detect color tstamp).2 = Except.error PyErr.nameError :=
  ⟨[], fun _ => Except.ok [], 7, 3, rfl⟩

/-- Claim C6: with `elapsed = now - tstamp`, the Staller blocks for
exactly `2 - elapsed` seconds when `elapsed < 2`, blocks not at all when
`elapsed ≥ 2`, and forwards the timestamp unchanged. -/
theorem staller_minimum_age (now tstamp : ℚ) :
    (now - tstamp < 2 → stallerSleep now tstamp = 2 - (now - tstamp)) ∧
    (2 ≤ now - tstamp → stallerSleep now tstamp = 0) ∧
    (stallerDoTask now tstamp).2 = tstamp := by
  refine ⟨?_, ?_, rfl⟩
  · intro h
    unfold stallerSleep
    simp only []
    rw [if_pos (by linarith)]
  · intro h
    unfold stallerSleep
    simp only []
    rw [if_neg (by intro hc; linarith)]

/-- Witness: a task of age 0.1 s sleeps 1.9 s; a task of age 5 s is
forwarded immediately. -/
theorem staller_minimum_age_witness :
    stallerSleep (1/10) 0 = 2 - (1/10 - 0) ∧ stallerSleep 5 0 = 0 :=
  ⟨(staller_minimum_age (1/10) 0).1 (by norm_num),
   (staller_minimum_age 5 0).2.1 (by norm_num)⟩

/-- Claim C9: for any raster transforms and any BGR input, the in-place
preprocessing variant leaves in the output buffer exactly the image the
functional variant returns: the histogram-equalized grayscale conversion
of the input. -/
theorem preprocess_eq_preprocess2 {Img : Type} (cvtGray equalizeHist : Img → Img)
    (image_in image_out : Img) :
    preprocess cvtGray equalizeHist image_in image_out =
      preprocess2 cvtGray equalizeHist image_in ∧
    preprocess2 cvtGray equalizeHist image_in = equalizeHist (cvtGray image_in) :=
  ⟨rfl, rfl⟩

/-! ## Postprocessor / DetectionAggregator (face.py lines 61-77)

`Postprocessor.doTask((tstamp, rects))` substitutes `self._prev_rects`
when `rects` is falsy, flattens `rects` with the comprehension
`[item for sublist in rects for item in sublist]`, draws each flattened
item by unpacking it as `x1, y1, x2, y2, color`, stores the flattened
list as the new `self._prev_rects`, and returns the timestamp.  Python
values flowing through this code are dynamically typed, so we embed them
as a small universe `Py` of ints and sequences (lists/tuples behave
identically here: both are iterable, both unpack).  Iterating an int
raises TypeError; unpacking a sequence of the wrong length raises
ValueError. -/

inductive Py where
  | int : Int → Py
  | seq : List Py → Py
  deriving Repr

/-- Python truthiness of the values in play: `0` and empty sequences are
falsy. -/
def pyTruthy : Py → Bool
  | Py.int n => n ≠ 0
  | Py.seq xs => !xs.isEmpty

/-- Python iteration: yields the elements of a sequence, TypeError on an
int. -/
def pyIter : Py → Except PyErr (List Py)
  | Py.int _ => Except.error PyErr.typeError
  | Py.seq xs => Except.ok xs

/-- Iterate every element of a list of Python values, collecting the
yielded elements of each. -/
def pyIterAll : List Py → Except PyErr (List (List Py))
  | [] => Except.ok []
  | x :: xs => do
      let h ← pyIter x
      let t ← pyIterAll xs
      Except.ok (h :: t)

/-- The comprehension `[item for sublist in rects for item in sublist]`. -/
def pyFlatten (rects : Py) : Except PyErr (List Py) := do
  let subs ← pyIter rects
  let xss ← pyIterAll subs
  Except.ok xss.flatten

/-- Tuple unpacking `x1, y1, x2, y2, color = item`. -/
def pyUnpack5 : Py → Except PyErr (Py × Py × Py × Py × Py)
  | Py.seq [a, b, c, d, e] => Except.ok (a, b, c, d, e)
  | Py.seq _ => Except.error PyErr.valueError
  | Py.int _ => Except.error PyErr.typeError

/-- The draw loop `for x1, y1, x2, y2, color in rects`: unpacks every
item (the `cv2.rectangle` call is a side effect on the raw buffer; the
unpacked items are the rectangles drawn). -/
def pyUnpackAll : List Py → Except PyErr (List (Py × Py × Py × Py × Py))
  | [] => Except.ok []
  | x :: xs => do
      let h ← pyUnpack5 x
      let t ← pyUnpackAll xs
      Except.ok (h :: t)

/-- One `Postprocessor.doTask` call.  Returns the new `_prev_rects`
state (the collection actually used, flattened), the rectangles drawn,
and the returned timestamp.  An exception anywhere aborts the call
before the state update. -/
def postprocessorDoTask (prev_rects : List Py) (tstamp : Nat) (rects0 : Py) :
    Except PyErr (List Py × List (Py × Py × Py × Py × Py) × Nat) := do
  let rects1 := if pyTruthy rects0 then rects0 else Py.seq prev_rects
  let rects2 ← pyFlatten rects1
  let drawn ← pyUnpackAll rects2
  Except.ok (rects2, drawn, tstamp)

/-- Feed a sequence of per-timestamp merged detection inputs through one
Postprocessor instance (initial `_prev_rects` given), threading its
state; yields per timestamp the rectangle collection actually used. -/
def postprocessorRun (prev_rects : List Py) : List Py → Except PyErr (List (List Py))
  | [] => Except.ok []
  | r :: rs => do
      let out ← postprocessorDoTask prev_rects 0 r
      let rest ← postprocessorRun out.1 rs
      Except.ok (out.1 :: rest)

/-- A sample detection rectangle `(1, 2, 3, 4, 9)` (four coordinates and
a color tag), as delivered by a Detector variant. -/
def sampleRect : Py :=
  Py.seq [Py.int 1, Py.int 2, Py.int 3, Py.int 4, Py.int 9]

/-! ## Contour filtering (iproc.py lines 61-79)

`postprocess` sorts the contours by `cv2.contourArea` in descending
order, then collects them in a loop that breaks at the first contour
whose area falls below the resolution-derived threshold.  Contours and
their areas are opaque; only the sort/filter logic is the program's
own. -/

/-- The resolution-derived area threshold:
`shape[0] * shape[1] * 0.00005 / 2`. -/
def areaThreshold (h w : Nat) : ℚ :=
  (h : ℚ) * (w : ℚ) * (5 / 100000) / 2

/-- The sort-then-break filtering loop of iproc.postprocess: sort by
descending area, keep collecting until the first contour with
`area < thresh`. -/
def sortFilterContours {C : Type} (area : C → ℚ) (thresh : ℚ)
    (contours : List C) : List C :=
  let sorted := contours.mergeSort (fun a b => decide (area b ≤ area a))
  sorted.takeWhile (fun c => !decide (area c < thresh))

/-- Claim C1 (code bug).  The carry-forward in `Postprocessor.doTask`
stores the *flattened* rectangle list as `_prev_rects` and, on an empty
frame, substitutes it and flattens it *again*: the second flatten
iterates each 5-tuple into bare scalars, and the draw loop's unpacking
then raises TypeError.  Concretely: a frame with detections `rects_A`
is processed fine (output `rects_A` flattened), but the following empty
frame crashes instead of reusing `rects_A` — the spec's required output
sequence `[rects_A, rects_A, ...]` is not produced. -/
theorem postprocessor_carry_forward_bug :
    postprocessorRun [] [Py.seq [Py.seq [sampleRect]]] = Except.ok [[sampleRect]] ∧
    postprocessorRun [] [Py.seq [Py.seq [sampleRect]], Py.seq []] =
      Except.error PyErr.typeError :=
  ⟨rfl, rfl⟩

/-- On a list pairwise-ordered by `R`, a `takeWhile` whose predicate can
only switch from true to false along `R` collects the same elements as a
full `filter`: breaking early at the first failure loses nothing. -/
theorem takeWhile_eq_filter_of_pairwise {C : Type} (p : C → Bool) (R : C → C → Prop)
    (hmono : ∀ a b, R a b → p a = false → p b = false) :
    ∀ l : List C, l.Pairwise R → l.takeWhile p = l.filter p := by
  intro l
  induction l with
  | nil => intro _; rfl
  | cons a t ih =>
    intro hp
    obtain ⟨ha, ht⟩ := List.pairwise_cons.mp hp
    cases hpa : p a with
    | false =>
      rw [List.takeWhile_cons, List.filter_cons, hpa]
      simp only [Bool.false_eq_true, if_false]
      symm
      rw [List.filter_eq_nil_iff]
      intro b hb
      simp [hmono a b (ha b hb) hpa]
    | true =>
      rw [List.takeWhile_cons, List.filter_cons, hpa]
      simp only [if_true]
      rw [ih ht]

/-- Membership characterization of the sort-then-break loop for an
arbitrary threshold: it keeps exactly the contours of area at least the
threshold. -/
theorem sortFilterContours_mem {C : Type} (area : C → ℚ) (thresh : ℚ)
    (contours : List C) (c : C) :
    c ∈ sortFilterContours area thresh contours ↔
      c ∈ contours ∧ thresh ≤ area c := by
  unfold sortFilterContours
  have htrans : ∀ a b c2 : C, decide (area b ≤ area a) = true →
      decide (area c2 ≤ area b) = true → decide (area c2 ≤ area a) = true := by
    intro a b c2 h1 h2
    simp only [decide_eq_true_eq] at h1 h2 ⊢
    linarith
  have htotal : ∀ a b : C, (decide (area b ≤ area a) || decide (area a ≤ area b)) = true := by
    intro a b
    simpa using le_total (area b) (area a)
  have hsorted := @List.sorted_mergeSort C (fun a b => decide (area b ≤ area a))
    htrans htotal contours
  have hmono : ∀ a b : C, (fun a b => decide (area b ≤ area a) = true) a b →
      (!decide (area a < thresh)) = false → (!decide (area b < thresh)) = false := by
    intro a b hab hpa
    simp only [decide_eq_true_eq] at hab
    have hlt : area a < thresh := by
      by_contra hc
      simp [hc] at hpa
    have hbt : area b < thresh := lt_of_le_of_lt hab hlt
    simp [hbt]
  rw [takeWhile_eq_filter_of_pairwise _ _ hmono _ hsorted]
  rw [List.mem_filter]
  rw [(List.mergeSort_perm contours _).mem_iff]
  simp [not_lt]

/-- Claim C10: in iproc.postprocess, with the resolution-derived area
threshold, the early-break loop over the descending-area-sorted contours
admits exactly the contours whose area is at least the threshold —
no qualifying contour is omitted and no non-qualifying one admitted. -/
theorem contour_filter_exact {C : Type} (area : C → ℚ) (rows cols : Nat)
    (contours : List C) (c : C) :
    c ∈ sortFilterContours area (areaThreshold rows cols) contours ↔
      c ∈ contours ∧ areaThreshold rows cols ≤ area c :=
  sortFilterContours_mem area (areaThreshold rows cols) contours c

/-! ## Status printing (face.py lines 104-110)

`printStatus` prints `'%05.3f, %05.3f, %05.3f' % framerate.tick()` and
returns the timestamp, with `framerate = util.RateTicker((1,5,10))`.
The `util` module belongs to this repository but is not under src/, so
`RateTicker.tick` is modelled from the spec.  The `%05.3f` directive is
embedded as a concrete decimal renderer over rationals (three fixed
decimals, zero-padded to a minimum width of five; rates are nonnegative
so no sign handling arises; C rounding ties are immaterial to the
claim and modelled half-up). -/

/-- Decimal digit characters of a natural number, most significant
first. -/
def natDigits (n : Nat) : List Char :=
  if n < 10 then [Nat.digitChar n]
  else natDigits (n / 10) ++ [Nat.digitChar (n % 10)]
termination_by n
decreasing_by exact Nat.div_lt_self (by omega) (by omega)

/-- The three fixed decimal places of `%.3f`, given the fractional part
scaled to thousandths (an argument below 1000). -/
def fracChars (f : Nat) : List Char :=
  [Nat.digitChar (f / 100), Nat.digitChar (f / 10 % 10), Nat.digitChar (f % 10)]

/-- Character data produced by `%05.3f` for the scaled nonnegative value
`n` (thousandths): integer digits, decimal point, three fractional
digits, left-padded with zeros to width five. -/
def fmt3Data (n : Nat) : List Char :=
  List.replicate (5 - (natDigits (n / 1000) ++ '.' :: fracChars (n % 1000)).length) '0' ++
    (natDigits (n / 1000) ++ '.' :: fracChars (n % 1000))

/-- The `%05.3f` format directive applied to a rational rate. -/
def fmt3 (q : ℚ) : String :=
  String.mk (fmt3Data (⌊q * 1000 + 1 / 2⌋).toNat)

/-- A fixed-precision rendering: at least five characters, digits with a
single decimal point followed by exactly three digits. -/
def isFixed3 (s : String) : Prop :=
  5 ≤ s.data.length ∧
  ∃ pre post, s.data = pre ++ '.' :: post ∧ pre ≠ [] ∧ post.length = 3 ∧
    (∀ ch ∈ pre, ch.isDigit = true) ∧ (∀ ch ∈ post, ch.isDigit = true)

/-- Modelled from the spec: `util.RateTicker` (module `util` is part of
this repository but missing from src/).  Per spec section 4.7 it keeps
one sliding window per configured duration; `tick()` records an event at
the current instant and returns, for each window, the count of events
inside that window divided by the window duration. -/
def rateTickerTick (windows : List ℚ) (events : List ℚ) (now : ℚ) :
    List ℚ × List ℚ :=
  let events2 := now :: events
  (events2, windows.map (fun w =>
    ((events2.filter (fun e => decide (now - e < w))).length : ℚ) / w))

/-- The format-string application `'%05.3f, %05.3f, %05.3f' % rates`:
requires exactly three values (a Python format/tuple arity mismatch
raises). -/
def formatRates : List ℚ → Except PyErr String
  | [a, b, c] => Except.ok (fmt3 a ++ ", " ++ fmt3 b ++ ", " ++ fmt3 c)
  | _ => Except.error PyErr.typeError

/-- face.py printStatus: ticks the (1,5,10)-window rate ticker, prints
one line, and returns the timestamp.  Result: new ticker event state,
the printed line, and the returned timestamp. -/
def printStatus (events : List ℚ) (now : ℚ) (tstamp : ℚ) :
    List ℚ × Except PyErr String × ℚ :=
  let t := rateTickerTick [1, 5, 10] events now
  (t.1, formatRates t.2, tstamp)

theorem digitChar_isDigit (d : Nat) (hd : d < 10) : (Nat.digitChar d).isDigit = true := by
  interval_cases d <;> decide

theorem natDigits_ne_nil (n : Nat) : natDigits n ≠ [] := by
  unfold natDigits
  split
  · simp
  · simp

theorem natDigits_all_digit (n : Nat) : ∀ ch ∈ natDigits n, ch.isDigit = true := by
  induction n using Nat.strong_induction_on with
  | _ n ih =>
    unfold natDigits
    split
    case isTrue h =>
      intro ch hch
      simp only [List.mem_singleton] at hch
      subst hch
      exact digitChar_isDigit n h
    case isFalse h =>
      intro ch hch
      rw [List.mem_append] at hch
      cases hch with
      | inl hch => exact ih (n / 10) (Nat.div_lt_self (by omega) (by omega)) ch hch
      | inr hch =>
        simp only [List.mem_singleton] at hch
        subst hch
        exact digitChar_isDigit (n % 10) (Nat.mod_lt n (by omega))

theorem fracChars_all_digit (f : Nat) (hf : f < 1000) :
    ∀ ch ∈ fracChars f, ch.isDigit = true := by
  intro ch hch
  unfold fracChars at hch
  simp only [List.mem_cons, List.mem_singleton, List.not_mem_nil, or_false] at hch
  rcases hch with h | h | h <;> subst h <;>
    exact digitChar_isDigit _ (by omega)

theorem fmt3_isFixed3 (q : ℚ) : isFixed3 (fmt3 q) := by
  show isFixed3 (String.mk (fmt3Data (⌊q * 1000 + 1 / 2⌋).toNat))
  generalize (⌊q * 1000 + 1 / 2⌋).toNat = n
  have hlen : 1 ≤ (natDigits (n / 1000)).length :=
    List.length_pos.mpr (natDigits_ne_nil (n / 1000))
  constructor
  · show 5 ≤ (fmt3Data n).length
    unfold fmt3Data fracChars
    simp only [List.length_append, List.length_replicate, List.length_cons]
    omega
  · refine ⟨List.replicate (5 - (natDigits (n / 1000) ++ '.' :: fracChars (n % 1000)).length) '0'
      ++ natDigits (n / 1000), fracChars (n % 1000), ?_, ?_, rfl, ?_, ?_⟩
    · show fmt3Data n = _
      unfold fmt3Data
      simp [List.append_assoc]
    · simp [natDigits_ne_nil (n / 1000)]
    · intro ch hch
      rcases List.mem_append.mp hch with hm | hm
      · have : ch = '0' := List.eq_of_mem_replicate hm
        subst this
        decide
      · exact natDigits_all_digit (n / 1000) ch hm
    · exact fracChars_all_digit (n % 1000) (Nat.mod_lt n (by omega))

theorem isFixed3_counts (s : String) (h : isFixed3 s) :
    s.data.count ',' = 0 ∧ s.data.count '\n' = 0 := by
  obtain ⟨-, pre, post, hdata, -, -, hpre, hpost⟩ := h
  have hmem : ∀ bad : Char, bad.isDigit = false → bad ≠ '.' → bad ∉ s.data := by
    intro bad hbad hdot hmemb
    rw [hdata] at hmemb
    rcases List.mem_append.mp hmemb with hm | hm
    · rw [hpre bad hm] at hbad
      cases hbad
    · rcases List.mem_cons.mp hm with he | hm2
      · exact hdot he
      · rw [hpost bad hm2] at hbad
        cases hbad
  exact ⟨List.count_eq_zero.mpr (hmem ',' (by decide) (by decide)),
    List.count_eq_zero.mpr (hmem '\n' (by decide) (by decide))⟩

theorem fmt3_count_comma (q : ℚ) : (fmt3 q).data.count ',' = 0 :=
  (isFixed3_counts _ (fmt3_isFixed3 q)).1

theorem fmt3_count_newline (q : ℚ) : (fmt3 q).data.count '\n' = 0 :=
  (isFixed3_counts _ (fmt3_isFixed3 q)).2

theorem sep_count_comma : (", " : String).data.count ',' = 1 := rfl

theorem sep_count_newline : (", " : String).data.count '\n' = 0 := rfl

/-- Claim C7: for every processed frame, the status stage emits exactly
one line — it contains exactly three fixed-precision rate values, one
per configured monitoring window (1, 5 and 10 seconds), separated by
commas (two comma separators, no embedded newline) — and returns the
frame's timestamp unchanged. -/
theorem printStatus_output_shape (events : List ℚ) (now : ℚ) (tstamp : ℚ) :
    ∃ line r1 r2 r3,
      (printStatus events now tstamp).2.1 = Except.ok line ∧
      (printStatus events now tstamp).2.2 = tstamp ∧
      (rateTickerTick [1, 5, 10] events now).2 = [r1, r2, r3] ∧
      line = fmt3 r1 ++ ", " ++ fmt3 r2 ++ ", " ++ fmt3 r3 ∧
      isFixed3 (fmt3 r1) ∧ isFixed3 (fmt3 r2) ∧ isFixed3 (fmt3 r3) ∧
      line.data.count ',' = 2 ∧ line.data.count '\n' = 0 := by
  refine ⟨_, _, _, _, rfl, rfl, rfl, rfl,
    fmt3_isFixed3 _, fmt3_isFixed3 _, fmt3_isFixed3 _, ?_, ?_⟩
  · simp only [String.data_append, List.count_append, fmt3_count_comma, sep_count_comma]
    decide
  · simp only [String.data_append, List.count_append, fmt3_count_newline, sep_count_newline]
    decide

/-! ## Shutdown cascade (face.py lines 192-201)

On capture-loop exit the Orchestrator runs, in program order:
`pipe_iproc.put(None)`; the drain loop over `pipe_pull.results()`; for
each detector pipeline `pipe.put(None)` followed by its drain loop;
`pipe_viewer.put(None)` followed by its drain loop.  We embed this
straight-line code as the sequence of shutdown events it performs, with
`n` the number of detector pipelines (one per classifier variant). -/

inductive PipeId where
  | iproc
  | pull
  | detector : Nat → PipeId
  | viewer
  deriving DecidableEq, Repr

inductive ShutdownEv where
  | sentinel : PipeId → ShutdownEv
  | drainDone : PipeId → ShutdownEv
  deriving DecidableEq, Repr

/-- The two shutdown events for detector pipeline `i`: its sentinel,
then the completion of its drain loop. -/
def detEvents (i : Nat) : List ShutdownEv :=
  [ShutdownEv.sentinel (PipeId.detector i), ShutdownEv.drainDone (PipeId.detector i)]

/-- The shutdown event sequence of face.py lines 192-201. -/
def shutdownTrace (n : Nat) : List ShutdownEv :=
  ShutdownEv.sentinel PipeId.iproc :: ShutdownEv.drainDone PipeId.pull ::
    ((List.range n).flatMap detEvents ++
      [ShutdownEv.sentinel PipeId.viewer, ShutdownEv.drainDone PipeId.viewer])

/-- `x` occurs strictly before `y` in the list `l`. -/
def precedes {α : Type} (x y : α) (l : List α) : Prop :=
  ∃ l₁ l₂ l₃, l = l₁ ++ x :: l₂ ++ y :: l₃

theorem range_flatMap_decomp (i n : Nat) (h : i < n) :
    ∃ B, (List.range n).flatMap detEvents =
      (List.range i).flatMap detEvents ++ (detEvents i ++ B) := by
  induction n with
  | zero => omega
  | succ m ih =>
    rcases Nat.lt_succ_iff_lt_or_eq.mp h with h2 | h2
    · obtain ⟨B, hB⟩ := ih h2
      refine ⟨B ++ detEvents m, ?_⟩
      rw [List.range_succ, List.flatMap_append, hB]
      simp [List.append_assoc]
    · subst h2
      refine ⟨[], ?_⟩
      rw [List.range_succ, List.flatMap_append]
      simp

/-- Claim C4: the shutdown cascade happens in the claimed order — the
sentinel enters the entry (image-processing) pipeline first, then the
reclaim stage is drained to completion, then each detector pipeline
receives its sentinel and is fully drained, and finally the display
pipeline receives its sentinel and is fully drained; the trace begins
with the entry sentinel and ends with the display drain. -/
theorem shutdown_cascade_order (n i : Nat) (hi : i < n) :
    precedes (ShutdownEv.sentinel PipeId.iproc) (ShutdownEv.drainDone PipeId.pull)
      (shutdownTrace n) ∧
    precedes (ShutdownEv.drainDone PipeId.pull) (ShutdownEv.sentinel (PipeId.detector i))
      (shutdownTrace n) ∧
    precedes (ShutdownEv.sentinel (PipeId.detector i)) (ShutdownEv.drainDone (PipeId.detector i))
      (shutdownTrace n) ∧
    precedes (ShutdownEv.drainDone (PipeId.detector i)) (ShutdownEv.sentinel PipeId.viewer)
      (shutdownTrace n) ∧
    precedes (ShutdownEv.sentinel PipeId.viewer) (ShutdownEv.drainDone PipeId.viewer)
      (shutdownTrace n) ∧
    (shutdownTrace n).head? = some (ShutdownEv.sentinel PipeId.iproc) ∧
    (shutdownTrace n).getLast? = some (ShutdownEv.drainDone PipeId.viewer) := by
  obtain ⟨B, hB⟩ := range_flatMap_decomp i n hi
  have htr : shutdownTrace n =
      ShutdownEv.sentinel PipeId.iproc :: ShutdownEv.drainDone PipeId.pull ::
      ((List.range i).flatMap detEvents ++
        (ShutdownEv.sentinel (PipeId.detector i) :: ShutdownEv.drainDone (PipeId.detector i) ::
          (B ++ [ShutdownEv.sentinel PipeId.viewer, ShutdownEv.drainDone PipeId.viewer]))) := by
    unfold shutdownTrace
    rw [hB]
    simp [detEvents, List.append_assoc]
  refine ⟨?_, ?_, ?_, ?_, ?_, ?_, ?_⟩
  · exact ⟨[], [],
      (List.range i).flatMap detEvents ++
        (ShutdownEv.sentinel (PipeId.detector i) :: ShutdownEv.drainDone (PipeId.detector i) ::
          (B ++ [ShutdownEv.sentinel PipeId.viewer, ShutdownEv.drainDone PipeId.viewer])),
      by rw [htr]; simp⟩
  · exact ⟨[ShutdownEv.sentinel PipeId.iproc], (List.range i).flatMap detEvents,
      ShutdownEv.drainDone (PipeId.detector i) ::
        (B ++ [ShutdownEv.sentinel PipeId.viewer, ShutdownEv.drainDone PipeId.viewer]),
      by rw [htr]; simp⟩
  · exact ⟨ShutdownEv.sentinel PipeId.iproc :: ShutdownEv.drainDone PipeId.pull ::
        (List.range i).flatMap detEvents, [],
      B ++ [ShutdownEv.sentinel PipeId.viewer, ShutdownEv.drainDone PipeId.viewer],
      by rw [htr]; simp⟩
  · exact ⟨ShutdownEv.sentinel PipeId.iproc :: ShutdownEv.drainDone PipeId.pull ::
        ((List.range i).flatMap detEvents ++ [ShutdownEv.sentinel (PipeId.detector i)]), B,
      [ShutdownEv.drainDone PipeId.viewer],
      by rw [htr]; simp⟩
  · exact ⟨ShutdownEv.sentinel PipeId.iproc :: ShutdownEv.drainDone PipeId.pull ::
        ((List.range n).flatMap detEvents), [], [],
      by unfold shutdownTrace; simp⟩
  · rw [htr]; rfl
  · have hsplit : shutdownTrace n =
        (ShutdownEv.sentinel PipeId.iproc :: ShutdownEv.drainDone PipeId.pull ::
          ((List.range n).flatMap detEvents ++ [ShutdownEv.sentinel PipeId.viewer])) ++
        [ShutdownEv.drainDone PipeId.viewer] := by
      unfold shutdownTrace
      simp [List.append_assoc]
    rw [hsplit, List.getLast?_concat]

/-- Witness for the shutdown cascade ordering at two detector
pipelines, checking the second one. -/
theorem shutdown_cascade_order_witness :
    precedes (ShutdownEv.sentinel PipeId.iproc) (ShutdownEv.drainDone PipeId.pull)
      (shutdownTrace 2) ∧
    precedes (ShutdownEv.drainDone PipeId.pull) (ShutdownEv.sentinel (PipeId.detector 1))
      (shutdownTrace 2) ∧
    precedes (ShutdownEv.sentinel (PipeId.detector 1)) (ShutdownEv.drainDone (PipeId.detector 1))
      (shutdownTrace 2) ∧
    precedes (ShutdownEv.drainDone (PipeId.detector 1)) (ShutdownEv.sentinel PipeId.viewer)
      (shutdownTrace 2) ∧
    precedes (ShutdownEv.sentinel PipeId.viewer) (ShutdownEv.drainDone PipeId.viewer)
      (shutdownTrace 2) ∧
    (shutdownTrace 2).head? = some (ShutdownEv.sentinel PipeId.iproc) ∧
    (shutdownTrace 2).getLast? = some (ShutdownEv.drainDone PipeId.viewer) :=
  shutdown_cascade_order 2 1 (by decide)

/-! ## Frame lifecycle (face.py lines 130-152, 161-188)

The wiring is: capture allocates `common[now]` and puts `now` on the
entry pipeline; the chain preproc → detector → postproc runs in order;
postproc feeds both the filter_viewer/viewer branch (which continues to
the staller) and the printer branch; the staller's output is the
terminal result stream of `pipe_iproc`, which the `pull` stage consumes,
deleting `common[tstamp]` for each timestamp it observes.  We model the
store by its set of live keys (stage writes to a record's buffers do not
change which entries exist). -/

structure PipeSt where
  store : List Nat
  qPre : List Nat
  qDet : List Nat
  qPost : List Nat
  qView : List Nat
  qStall : List Nat
  qPrint : List Nat
  qResults : List Nat
  deriving DecidableEq, Repr

/-- Timestamps currently inside the serial stage chain leading to the
terminal result stream (the printer branch holds no FrameStore
references and is excluded). -/
def chainTs (s : PipeSt) : List Nat :=
  s.qPre ++ s.qDet ++ s.qPost ++ s.qView ++ s.qStall ++ s.qResults

/-- Modelled from the spec: the `mpipe` stage/pipeline semantics are
external to src/ (spec sections 4.2-4.4: each stage consumes tasks from
its input queue in order and emits to its linked downstream stages; a
Pipeline exposes the terminal stage's outputs as its result stream, and
the spec's data flow ends `... → Staller → reclaim stage`).  The wiring
and the stage bodies are from face.py: capture requires a fresh
timestamp (capture timestamps increase monotonically and are unique per
frame); processing steps move a timestamp down the chain without
touching store keys; the postprocessor fans out to the viewer branch and
the printer branch; only the pull step deletes a store entry, popping
the terminal result stream. -/
inductive PipeStep : PipeSt → PipeSt → Prop where
  | capture (s : PipeSt) (t : Nat) (hstore : t ∉ s.store) (hchain : t ∉ chainTs s) :
      PipeStep s { s with store := t :: s.store, qPre := s.qPre ++ [t] }
  | preprocessorStep (s : PipeSt) (t : Nat) (rest : List Nat) (h : s.qPre = t :: rest) :
      PipeStep s { s with qPre := rest, qDet := s.qDet ++ [t] }
  | detectorStep (s : PipeSt) (t : Nat) (rest : List Nat) (h : s.qDet = t :: rest) :
      PipeStep s { s with qDet := rest, qPost := s.qPost ++ [t] }
  | postprocessorStep (s : PipeSt) (t : Nat) (rest : List Nat) (h : s.qPost = t :: rest) :
      PipeStep s { s with qPost := rest, qView := s.qView ++ [t], qPrint := s.qPrint ++ [t] }
  | viewerStep (s : PipeSt) (t : Nat) (rest : List Nat) (h : s.qView = t :: rest) :
      PipeStep s { s with qView := rest, qStall := s.qStall ++ [t] }
  | stallerStep (s : PipeSt) (t : Nat) (rest : List Nat) (h : s.qStall = t :: rest) :
      PipeStep s { s with qStall := rest, qResults := s.qResults ++ [t] }
  | printerStep (s : PipeSt) (t : Nat) (rest : List Nat) (h : s.qPrint = t :: rest) :
      PipeStep s { s with qPrint := rest }
  | pullStep (s : PipeSt) (t : Nat) (rest : List Nat) (h : s.qResults = t :: rest) :
      PipeStep s { s with qResults := rest, store := s.store.erase t }

/-- The system before capture begins: empty store, empty queues. -/
def initSt : PipeSt := ⟨[], [], [], [], [], [], [], []⟩

def PipeReachable (s : PipeSt) : Prop :=
  Relation.ReflTransGen PipeStep initSt s

/-- Each timestamp occurs at most once across the serial chain. -/
def ChainUnique (s : PipeSt) : Prop :=
  ∀ t : Nat, (chainTs s).count t ≤ 1

theorem chainUnique_init : ChainUnique initSt := by
  intro t
  simp [chainTs, initSt]

theorem chainUnique_step (s s₂ : PipeSt) (hstep : PipeStep s s₂)
    (hu : ChainUnique s) : ChainUnique s₂ := by
  cases hstep with
  | capture t hstore hchain =>
    intro u
    have hc := hu u
    by_cases he : u = t
    · subst he
      have h0 : (chainTs s).count u = 0 := List.count_eq_zero.mpr hchain
      simp only [chainTs, List.count_append] at h0 ⊢
      have h1 : List.count u [u] = 1 := by simp
      omega
    · have h1 : List.count u [t] = 0 := List.count_eq_zero.mpr (by simp [he])
      simp only [chainTs, List.count_append] at hc ⊢
      omega
  | preprocessorStep t rest h =>
    intro u
    have hc := hu u
    by_cases he : u = t
    · subst he
      simp only [chainTs, h, List.count_append, List.count_cons_self,
        List.count_nil] at hc ⊢
      omega
    · simp only [chainTs, h, List.count_append, List.count_cons_of_ne he,
        List.count_nil] at hc ⊢
      omega
  | detectorStep t rest h =>
    intro u
    have hc := hu u
    by_cases he : u = t
    · subst he
      simp only [chainTs, h, List.count_append, List.count_cons_self,
        List.count_nil] at hc ⊢
      omega
    · simp only [chainTs, h, List.count_append, List.count_cons_of_ne he,
        List.count_nil] at hc ⊢
      omega
  | postprocessorStep t rest h =>
    intro u
    have hc := hu u
    by_cases he : u = t
    · subst he
      simp only [chainTs, h, List.count_append, List.count_cons_self,
        List.count_nil] at hc ⊢
      omega
    · simp only [chainTs, h, List.count_append, List.count_cons_of_ne he,
        List.count_nil] at hc ⊢
      omega
  | viewerStep t rest h =>
    intro u
    have hc := hu u
    by_cases he : u = t
    · subst he
      simp only [chainTs, h, List.count_append, List.count_cons_self,
        List.count_nil] at hc ⊢
      omega
    · simp only [chainTs, h, List.count_append, List.count_cons_of_ne he,
        List.count_nil] at hc ⊢
      omega
  | stallerStep t rest h =>
    intro u
    have hc := hu u
    by_cases he : u = t
    · subst he
      simp only [chainTs, h, List.count_append, List.count_cons_self,
        List.count_nil] at hc ⊢
      omega
    · simp only [chainTs, h, List.count_append, List.count_cons_of_ne he,
        List.count_nil] at hc ⊢
      omega
  | printerStep t rest h =>
    intro u
    have hc := hu u
    simpa [chainTs] using hc
  | pullStep t rest h =>
    intro u
    have hc := hu u
    by_cases he : u = t
    · subst he
      simp only [chainTs, h, List.count_append, List.count_cons_self,
        List.count_nil] at hc ⊢
      omega
    · simp only [chainTs, h, List.count_append, List.count_cons_of_ne he,
        List.count_nil] at hc ⊢
      omega

theorem reachable_chainUnique (s : PipeSt) (h : PipeReachable s) : ChainUnique s := by
  induction h with
  | refl => exact chainUnique_init
  | tail hsteps hstep ih => exact chainUnique_step _ _ hstep ih

/-- Claim C2: in every reachable system state, a step that removes a
FrameStore entry can only be the reclaim (`pull`) step, taken just as
that timestamp sits at the head of the image-processing pipeline's
terminal result stream — and at that moment the timestamp is no longer
pending at any stage that may still reference the record (preprocessor,
detector, postprocessor, viewer, staller). -/
theorem frame_reclaim_safety (s s₂ : PipeSt) (hr : PipeReachable s)
    (hstep : PipeStep s s₂) (t : Nat) (hin : t ∈ s.store) (hout : t ∉ s₂.store) :
    s.qResults.head? = some t ∧
    t ∉ s.qPre ∧ t ∉ s.qDet ∧ t ∉ s.qPost ∧ t ∉ s.qView ∧ t ∉ s.qStall := by
  have hu := reachable_chainUnique s hr
  cases hstep with
  | capture t2 hstore hchain =>
    exact absurd (List.mem_cons_of_mem _ hin) hout
  | preprocessorStep t2 rest h => exact absurd hin hout
  | detectorStep t2 rest h => exact absurd hin hout
  | postprocessorStep t2 rest h => exact absurd hin hout
  | viewerStep t2 rest h => exact absurd hin hout
  | stallerStep t2 rest h => exact absurd hin hout
  | printerStep t2 rest h => exact absurd hin hout
  | pullStep t2 rest h =>
    have hte : t = t2 := by
      by_contra hne
      exact hout ((List.mem_erase_of_ne hne).mpr hin)
    subst hte
    have hmem : t ∈ s.qResults := by
      rw [h]
      exact List.mem_cons_self _ _
    have hres : s.qResults.count t ≠ 0 := fun h0 => (List.count_eq_zero.mp h0) hmem
    have hcount := hu t
    simp only [chainTs, List.count_append] at hcount
    refine ⟨by rw [h]; rfl, fun hm => ?_, fun hm => ?_, fun hm => ?_, fun hm => ?_, fun hm => ?_⟩
    · have h1 : s.qPre.count t ≠ 0 := fun h0 => (List.count_eq_zero.mp h0) hm
      omega
    · have h1 : s.qDet.count t ≠ 0 := fun h0 => (List.count_eq_zero.mp h0) hm
      omega
    · have h1 : s.qPost.count t ≠ 0 := fun h0 => (List.count_eq_zero.mp h0) hm
      omega
    · have h1 : s.qView.count t ≠ 0 := fun h0 => (List.count_eq_zero.mp h0) hm
      omega
    · have h1 : s.qStall.count t ≠ 0 := fun h0 => (List.count_eq_zero.mp h0) hm
      omega

/-- Witness: a concrete run — capture timestamp 7, walk it through the
stage chain to the terminal result stream (the printer branch still
pending), then reclaim it. -/
theorem frame_reclaim_safety_witness :
    (PipeSt.mk [7] [] [] [] [] [] [7] [7]).qResults.head? = some 7 ∧
    (7 : Nat) ∉ (PipeSt.mk [7] [] [] [] [] [] [7] [7]).qPre ∧
    (7 : Nat) ∉ (PipeSt.mk [7] [] [] [] [] [] [7] [7]).qDet ∧
    (7 : Nat) ∉ (PipeSt.mk [7] [] [] [] [] [] [7] [7]).qPost ∧
    (7 : Nat) ∉ (PipeSt.mk [7] [] [] [] [] [] [7] [7]).qView ∧
    (7 : Nat) ∉ (PipeSt.mk [7] [] [] [] [] [] [7] [7]).qStall :=
  frame_reclaim_safety (PipeSt.mk [7] [] [] [] [] [] [7] [7])
    (PipeSt.mk [] [] [] [] [] [] [7] [])
    (Relation.ReflTransGen.head (PipeStep.capture initSt 7 (by decide) (by decide))
      (Relation.ReflTransGen.head (PipeStep.preprocessorStep _ 7 [] rfl)
        (Relation.ReflTransGen.head (PipeStep.detectorStep _ 7 [] rfl)
          (Relation.ReflTransGen.head (PipeStep.postprocessorStep _ 7 [] rfl)
            (Relation.ReflTransGen.head (PipeStep.viewerStep _ 7 [] rfl)
              (Relation.ReflTransGen.head (PipeStep.stallerStep _ 7 [] rfl)
                Relation.ReflTransGen.refl))))))
    (PipeStep.pullStep _ 7 [] rfl)
    7 (by decide) (by decide)
